import Mathlib

set_option maxHeartbeats 1000000

/-! Formal model of the medicaltorch dataset / transform core
(`medicaltorch/datasets.py` and `medicaltorch/transforms.py`).

Pixel and voxel intensities are modelled as rationals, image planes and
volumes as shape data plus an intensity function, and Python exceptions
as an explicit error kind threaded through `Except`.  External
collaborators (PIL, torchvision functional ops, nibabel, numpy warps)
are modelled at the level of their documented behaviour on the code
paths the development reasons about. -/

/-- Kinds of Python exceptions raised by the modelled code paths. -/
inductive PyError where
  | runtimeError
  | attributeError
  | indexError
  | typeError
  | zeroDivisionError
  deriving DecidableEq

/-! ## 2D PIL images and the crop / undo contract (transforms.py) -/

/-- A PIL image in float mode: a width, a height and an intensity
function.  Intensities are indexed by integer column `x` and row `y`;
only indices inside `[0, width) x [0, height)` are meaningful and every
constructed image returns `0` outside that window. -/
structure PILImage where
  width : Nat
  height : Nat
  pix : Int → Int → ℚ

/-- Banker's rounding of `k / 2`, the value of Python's
`int(round(k / 2.))` for an integer `k` (the only rounding the crop code
performs; `k / 2.` is exactly representable so Python rounds half to
even). -/
def bankerHalf (k : Int) : Int :=
  let m := k / 2
  if k % 2 = 0 then m else if m % 2 = 0 then m else m + 1

/-- PIL `Image.crop((left, upper, right, lower))`: the rectangular
region `[left, right) x [upper, lower)`, with pixels outside the source
canvas filled with `0`. -/
def pilCrop (img : PILImage) (left upper right lower : Int) : PILImage :=
  { width := (right - left).toNat
    height := (lower - upper).toNat
    pix := fun x y =>
      if 0 ≤ x ∧ x < right - left ∧ 0 ≤ y ∧ y < lower - upper ∧
         0 ≤ left + x ∧ left + x < (img.width : Int) ∧
         0 ≤ upper + y ∧ upper + y < (img.height : Int)
      then img.pix (left + x) (upper + y) else 0 }

/-- torchvision `F.center_crop(img, (th, tw))`: computes the top-left
corner with `int(round(...))` and delegates to PIL `crop`. -/
def torchvisionCenterCrop (img : PILImage) (size : Nat × Nat) : PILImage :=
  let th := size.1
  let tw := size.2
  let i := bankerHalf ((img.height : Int) - th)
  let j := bankerHalf ((img.width : Int) - tw)
  pilCrop img j i (j + tw) (i + th)

/-- The `(fh, fw, w, h)` tuple that `CenterCrop2D.__call__` stores under
the reserved `__centercrop` metadata key. -/
structure CropParams where
  fh : Int
  fw : Int
  w : Nat
  h : Nat

/-- `CenterCrop2D.__call__` on the input image: computes
`fh = int(round((h - th) / 2.))`, `fw = int(round((w - tw) / 2.))`,
records `(fh, fw, w, h)` via `propagate_params` and center-crops the
image to `size = (th, tw)`.  Returns the cropped image together with the
recorded parameters. -/
def centerCrop2D_call (size : Nat × Nat) (img : PILImage) : PILImage × CropParams :=
  let th := size.1
  let tw := size.2
  let fh := bankerHalf ((img.height : Int) - th)
  let fw := bankerHalf ((img.width : Int) - tw)
  (torchvisionCenterCrop img size, ⟨fh, fw, img.width, img.height⟩)

/-- torchvision `F.pad(img, (pl, pt, pr, pb))` on a PIL image: expands
the canvas by the given left / top / right / bottom borders, filling the
border with `0`. -/
def torchvisionPad (img : PILImage) (pl pt pr pb : Int) : PILImage :=
  { width := ((img.width : Int) + pl + pr).toNat
    height := ((img.height : Int) + pt + pb).toNat
    pix := fun x y =>
      if 0 ≤ x ∧ x < (img.width : Int) + pl + pr ∧
         0 ≤ y ∧ y < (img.height : Int) + pt + pb ∧
         pl ≤ x ∧ x < pl + img.width ∧ pt ≤ y ∧ y < pt + img.height
      then img.pix (x - pl) (y - pt) else 0 }

/-- The four paddings `(pad_left, pad_top, pad_right, pad_bottom)` that
`Crop2D.undo_transform` computes from the recorded parameters and the
configured crop size `(th, tw)`. -/
def crop2D_undo_pads (size : Nat × Nat) (p : CropParams) : Int × Int × Int × Int :=
  let th := size.1
  let tw := size.2
  let pad_left := p.fw
  let pad_right := (p.w : Int) - pad_left - tw
  let pad_top := p.fh
  let pad_bottom := (p.h : Int) - pad_top - th
  (pad_left, pad_top, pad_right, pad_bottom)

/-- `Crop2D.undo_transform` on the input image: reads the recorded
`(fh, fw, w, h)` parameters and zero-pads the image with the four
computed borders. -/
def crop2D_undo (size : Nat × Nat) (p : CropParams) (img : PILImage) : PILImage :=
  let pads := crop2D_undo_pads size p
  torchvisionPad img pads.1 pads.2.1 pads.2.2.1 pads.2.2.2

/-! ## 2D planes, samples and the randomized transforms -/

/-- A 2D array of rational intensities: an in-plane shape together with
an intensity function (indices outside the shape are not meaningful). -/
structure Plane where
  shape : Nat × Nat
  pix : Nat → Nat → ℚ

/-- A 2D sample dictionary restricted to the keys the modelled
transforms touch: the list of input channel planes and the list of
ground-truth channel planes.  `sample.update(rdict)` is modelled by
structure update, which leaves the other key untouched. -/
structure Sample2D where
  input : List Plane
  gt : List Plane

/-- The first masked numpy assignment of the ground-truth binarization:
`np_gt_data[np_gt_data >= 0.5] = 1.0`. -/
def npSetHigh (p : Plane) : Plane :=
  { shape := p.shape, pix := fun i j => if 1/2 ≤ p.pix i j then 1 else p.pix i j }

/-- The second masked numpy assignment of the ground-truth binarization:
`np_gt_data[np_gt_data < 0.5] = 0.0` (applied after `npSetHigh`). -/
def npSetLow (p : Plane) : Plane :=
  { shape := p.shape, pix := fun i j => if p.pix i j < 1/2 then 0 else p.pix i j }

/-- `RandomAffine.label_augment`: warps the ground-truth plane with the
sampled affine parameters (the torchvision `F.affine` warp is the
external collaborator `warp`) and then applies the two masked
assignments that binarize at threshold `0.5`. -/
def affine_label_augment (warp : Plane → Plane) (g : Plane) : Plane :=
  npSetLow (npSetHigh (warp g))

/-- `RandomAffine.__call__` on a sample whose `input` is a list of
channel planes: every input channel is warped with the same sampled
parameters (`sample_augment`, i.e. `warp`), and when `labeled` every
ground-truth channel goes through `label_augment`. -/
def affine_call (warp : Plane → Plane) (labeled : Bool) (s : Sample2D) : Sample2D :=
  let s1 : Sample2D := { s with input := s.input.map warp }
  if labeled then { s1 with gt := s1.gt.map (affine_label_augment warp) } else s1

/-- `ElasticTransform.label_augment`: applies the shared random
displacement field (the scipy-based `elastic_transform` is the external
collaborator `warp`) and then the same two masked binarizing
assignments. -/
def elastic_label_augment (warp : Plane → Plane) (g : Plane) : Plane :=
  npSetLow (npSetHigh (warp g))

/-- `ElasticTransform.__call__`: the transform fires only when the
per-call uniform draw is below the probability `p`; in that case every
input channel is warped and, when `labeled`, every ground-truth channel
goes through `label_augment`.  Otherwise the sample is returned
unchanged. -/
def elastic_call (draw p : ℚ) (warp : Plane → Plane) (labeled : Bool)
    (s : Sample2D) : Sample2D :=
  if draw < p then
    let s1 : Sample2D := { s with input := s.input.map warp }
    if labeled then { s1 with gt := s1.gt.map (elastic_label_augment warp) } else s1
  else s

/-- `RandomTensorChannelShift.sample_augment`: adds the sampled constant
to every entry of the plane. -/
def rtcs_sample_augment (c : ℚ) (p : Plane) : Plane :=
  { shape := p.shape, pix := fun i j => p.pix i j + c }

/-- `RandomTensorChannelShift.__call__` on a sample whose `input` is a
list: builds `ret_input = [sample_augment(input_data[0]), input_data[1]]`,
so it needs at least two channels (`input_data[1]` raises `IndexError`
otherwise), keeps exactly two, and updates only the `input` key. -/
def rtcs_call (c : ℚ) (s : Sample2D) : Except PyError Sample2D :=
  match s.input with
  | i0 :: i1 :: _ => .ok { s with input := [rtcs_sample_augment c i0, i1] }
  | _ => .error .indexError

/-! ## Volume pairs: shapes, canonicalization, slicing (datasets.py) -/

/-- The loop bodies of `SegmentationPair2D.get_pair_shapes`: append each
shape to the accumulator and raise the given error when
`len(set(acc)) == 0` (the dedup of the accumulated shapes is empty). -/
def shapesAccumLoop (err : PyError) :
    List (List Nat) → List (List Nat) → Except PyError (List (List Nat))
  | acc, [] => .ok acc
  | acc, s :: rest =>
    let acc2 := acc ++ [s]
    if acc2.dedup.length = 0 then .error err else shapesAccumLoop err acc2 rest

/-- `SegmentationPair2D.get_pair_shapes`: runs the input-shape loop and
the ground-truth-shape loop (the latter over the non-absent ground-truth
channels), then returns `(input_shape[0], gt_shape[0] if len(gt_shape)
else None)`; indexing an empty input list raises `IndexError`. -/
def get_pair_shapes (inputShapes : List (List Nat))
    (gtShapes : List (Option (List Nat))) :
    Except PyError (List Nat × Option (List Nat)) :=
  match shapesAccumLoop .runtimeError [] inputShapes with
  | .error e => .error e
  | .ok ish =>
    match shapesAccumLoop .runtimeError [] (gtShapes.filterMap id) with
    | .error e => .error e
    | .ok gsh =>
      match ish with
      | [] => .error .indexError
      | i0 :: _ => .ok (i0, gsh.head?)

/-- A nibabel volume handle: the as-loaded shape and the shape the
volume would have after reorientation to the canonical axis order
(modelled external collaborator; `nib.as_closest_canonical` may permute
the axes and hence the shape). -/
structure NibHandle where
  shape : List Nat
  canonicalShape : List Nat
  deriving DecidableEq

/-- Modelled `nib.as_closest_canonical`: reorients the volume to the
canonical axis order; the resulting handle carries the canonical shape
and is a fixed point of further canonicalization. -/
def as_closest_canonical (h : NibHandle) : NibHandle :=
  ⟨h.canonicalShape, h.canonicalShape⟩

/-- The handle lists a constructed `SegmentationPair2D` holds. -/
structure PairState where
  input_handle : List NibHandle
  gt_handle : List (Option NibHandle)
  deriving DecidableEq

/-- `SegmentationPair2D.__init__` (handle bookkeeping): loads the
inputs, rejecting any volume with more than 3 dimensions; loads the
ground-truth handles when a ground-truth list is supplied; runs
`get_pair_shapes` and, when ground truth is supplied, the
`np.allclose(input_shape, gt_shape)` agreement check (elementwise
equality of the two shape tuples; comparing against an absent
ground-truth shape raises `TypeError`); and only after these checks, if
`canonical` is set, replaces every input handle and every present
ground-truth handle by its canonical reorientation. -/
def segPairInit (inputs : List NibHandle) (gts : Option (List (Option NibHandle)))
    (canonical : Bool) : Except PyError PairState :=
  if inputs.any (fun h => 3 < h.shape.length) then .error .runtimeError
  else
    let gtH := gts.getD []
    match get_pair_shapes (inputs.map (fun h => h.shape))
        (gtH.map (Option.map (fun h => h.shape))) with
    | .error e => .error e
    | .ok (ishape, gshape) =>
      let chk : Except PyError Unit :=
        match gts with
        | none => .ok ()
        | some _ =>
          match gshape with
          | none => .error .typeError
          | some gs => if ishape = gs then .ok () else .error .runtimeError
      match chk with
      | .error e => .error e
      | .ok _ =>
        let inputH := if canonical then inputs.map as_closest_canonical else inputs
        let gtH2 :=
          if canonical then
            (if gts.isSome then gtH.map (Option.map as_closest_canonical) else gtH)
          else gtH
        .ok ⟨inputH, gtH2⟩

/-! ## The 2D slice index -/

/-- A data volume: its shape (as the tuple numpy / nibabel report) and a
voxel intensity function. -/
structure Volume3D where
  shape : List Nat
  voxel : Nat → Nat → Nat → ℚ

/-- Component `axis` of a shape tuple (the claims only index in range;
tuple over-indexing is not modelled). -/
def dimAt (sh : List Nat) (axis : Nat) : Nat := sh.getD axis 0

/-- The 2D plane of a volume at position `idx` along `axis`
(`data[idx, ...]`, `data[:, idx, ...]` or `data[..., idx]`).  Only
called with `axis < 3`; the last branch is the `axis = 2` case. -/
def planeAt (v : Volume3D) (axis idx : Nat) : Plane :=
  match axis with
  | 0 => { shape := (dimAt v.shape 1, dimAt v.shape 2), pix := fun a b => v.voxel idx a b }
  | 1 => { shape := (dimAt v.shape 0, dimAt v.shape 2), pix := fun a b => v.voxel a idx b }
  | _ => { shape := (dimAt v.shape 0, dimAt v.shape 1), pix := fun a b => v.voxel a b idx }

/-- The all-zero volume `np.zeros(shape)` that `get_pair_data`
substitutes for an absent ground-truth channel. -/
def zeroVolume (sh : List Nat) : Volume3D := ⟨sh, fun _ _ _ => 0⟩

/-- Shape of the first input volume, `input_handle[0].shape` (the
callers below only reach it with a nonempty input list). -/
def firstInputShape (inputs : List Volume3D) : List Nat :=
  match inputs with
  | v :: _ => v.shape
  | [] => []

/-- The slice sample `get_pair_slice` returns: the input planes and the
ground-truth planes (metadata propagation is orthogonal to the claims
settled here and is not carried). -/
structure SliceSample where
  input : List Plane
  gt : List Plane

/-- The payload `get_pair_slice` builds for a valid axis: one plane per
input channel, and one plane per ground-truth channel where an absent
channel was replaced (in `get_pair_data`) by a zero-filled volume of the
first input's shape. -/
def mkSliceSample (inputs : List Volume3D) (gts : List (Option Volume3D))
    (axis idx : Nat) : SliceSample :=
  { input := inputs.map (fun v => planeAt v axis idx)
    gt := gts.map (fun og =>
      match og with
      | some g => planeAt g axis idx
      | none => planeAt (zeroVolume (firstInputShape inputs)) axis idx) }

/-- `SegmentationPair2D.get_pair_slice`: raises for a slicing axis
outside `{0, 1, 2}` and otherwise returns the slice sample. -/
def get_pair_slice (inputs : List Volume3D) (gts : List (Option Volume3D))
    (axis idx : Nat) : Except PyError SliceSample :=
  if axis < 3 then .ok (mkSliceSample inputs gts axis idx) else .error .runtimeError

/-- One `filename_pairs` group of `MRI2DSegmentationDataset`: the input
channel volumes, the ground-truth channel volumes (entries individually
absent) and the region-of-interest channel volumes (the empty list
models an absent ROI file). -/
structure FileGroup where
  inputVols : List Volume3D
  gtVols : List (Option Volume3D)
  roiVols : List (Option Volume3D)

/-- Whether a candidate slice survives the optional inclusion
predicate (`slice_filter_fn`). -/
def keepSlice (filter : Option (SliceSample → Bool)) (s : SliceSample) : Bool :=
  match filter with
  | none => true
  | some f => f s

/-- The per-group slice loop of `_load_filenames` over the given slice
positions: materialize the ground-truth slice, drop it if the predicate
rejects it, otherwise also materialize the ROI slice and append the
pair. -/
def loadSlices (g : FileGroup) (axis : Nat) (filter : Option (SliceSample → Bool)) :
    List Nat → Except PyError (List (SliceSample × SliceSample))
  | [] => .ok []
  | idx :: rest =>
    match get_pair_slice g.inputVols g.gtVols axis idx with
    | .error e => .error e
    | .ok seg =>
      if keepSlice filter seg then
        match get_pair_slice g.inputVols g.roiVols axis idx with
        | .error e => .error e
        | .ok roi =>
          match loadSlices g axis filter rest with
          | .error e => .error e
          | .ok l => .ok ((seg, roi) :: l)
      else
        match loadSlices g axis filter rest with
        | .error e => .error e
        | .ok l => .ok l

/-- The `_load_filenames` body for one group: reads the input shape via
`get_pair_shapes` and enumerates every slice position along the slicing
axis (`range(input_data_shape[slice_axis])`); construction-time
validation of the two `SegmentationPair2D`s is modelled by
`segPairInit` and assumed to pass for the valid groups the claims
quantify over. -/
def loadGroup (g : FileGroup) (axis : Nat)
    (filter : Option (SliceSample → Bool)) :
    Except PyError (List (SliceSample × SliceSample)) :=
  match get_pair_shapes (g.inputVols.map (fun v => v.shape))
      (g.gtVols.map (Option.map (fun v => v.shape))) with
  | .error e => .error e
  | .ok (ishape, _) =>
    if axis < ishape.length then
      loadSlices g axis filter (List.range (dimAt ishape axis))
    else .error .indexError

/-- `MRI2DSegmentationDataset._load_filenames`: concatenation of the
per-group slice indexes, in group order. -/
def load_filenames (groups : List FileGroup) (axis : Nat)
    (filter : Option (SliceSample → Bool)) :
    Except PyError (List (SliceSample × SliceSample)) :=
  match groups with
  | [] => .ok []
  | g :: rest =>
    match loadGroup g axis filter with
    | .error e => .error e
    | .ok l1 =>
      match load_filenames rest axis filter with
      | .error e => .error e
      | .ok l2 => .ok (l1 ++ l2)

/-- Extent of a group along the slicing axis, read from the first input
volume's shape (which `get_pair_shapes` returns). -/
def groupExtent (g : FileGroup) (axis : Nat) : Nat :=
  dimAt (firstInputShape g.inputVols) axis

/-- Number of slice positions of a group that the predicate excludes. -/
def excludedCount (g : FileGroup) (axis : Nat) (f : SliceSample → Bool) : Nat :=
  (List.range (groupExtent g axis)).countP
    (fun i => ! f (mkSliceSample g.inputVols g.gtVols axis i))

/-- Excluded-slice count for an optional predicate (`0` when there is no
predicate). -/
def excludedCountOpt (g : FileGroup) (axis : Nat)
    (filter : Option (SliceSample → Bool)) : Nat :=
  match filter with
  | none => 0
  | some f => excludedCount g axis f

/-- An 8-bit mask plane, the result of `(slice * 255).astype(np.uint8)`
followed by `Image.fromarray(..., mode='L')`. -/
structure BytePlane where
  shape : Nat × Nat
  pix : Nat → Nat → Nat

/-- Modelled `astype(np.uint8)` of a float value: truncation toward zero
reduced mod 256 (no claim depends on this conversion). -/
def npUint8OfRat (q : ℚ) : Nat :=
  (Int.emod (Int.tdiv q.num (q.den : Int)) 256).toNat

/-- The 8-bit quantization `(plane * 255).astype(np.uint8)` applied to
ground-truth and ROI planes in `__getitem__`. -/
def byteQuantize (p : Plane) : BytePlane :=
  ⟨p.shape, fun i j => npUint8OfRat (p.pix i j * 255)⟩

/-- The sample dictionary `__getitem__` assembles (metadata keys are
orthogonal to the claims settled here and not carried). -/
structure DataDict where
  input : List Plane
  gt : List BytePlane
  roi : Option (List BytePlane)

/-- `MRI2DSegmentationDataset.__getitem__`: fetches the stored
`(seg, roi)` slice pair (an out-of-range index is an `IndexError`,
modelled by `none`), converts the input planes to PIL float images (the
identity on the plane data), quantizes ground-truth and ROI planes to
8 bits, sets `roi` to an absent marker when no ROI slices exist, and
finally applies the configured transform if present. -/
def getItem2D (indexes : List (SliceSample × SliceSample))
    (transform : Option (DataDict → DataDict)) (i : Nat) : Option DataDict :=
  (indexes[i]?).map (fun e =>
    let base : DataDict :=
      { input := e.1.input
        gt := e.1.gt.map byteQuantize
        roi :=
          match e.2.gt with
          | [] => none
          | l => some (l.map byteQuantize) }
    match transform with
    | none => base
    | some t => t base)

/-! ## The 3D subvolume index -/

/-- Shapes, core lengths and crop sizes of the 3D subvolume dataset are
triples, one entry per axis. -/
abbrev Shape3 := Nat × Nat × Nat

/-- Python `range(start, stop, step)` for a positive step, as the list
of its elements. -/
def pythonRange (start stop step : Nat) : List Nat :=
  (List.range ((stop - start + step - 1) / step)).map (fun k => start + k * step)

/-- One subvolume window of `MRI3DSubVolumeSegmentationDataset`: the six
half-open coordinate bounds plus the volume (handler) index. -/
structure SubIdx where
  x_min : Nat
  x_max : Nat
  y_min : Nat
  y_max : Nat
  z_min : Nat
  z_max : Nat
  handler_index : Nat
  deriving DecidableEq

/-- The window appended for loop variables `(x, y, z)`:
bounds `v - length[axis] - padding` to `v + padding` per axis. -/
def mkSub (length : Shape3) (padding : Nat) (i x y z : Nat) : SubIdx :=
  { x_min := x - length.1 - padding
    x_max := x + padding
    y_min := y - length.2.1 - padding
    y_max := y + padding
    z_min := z - length.2.2 - padding
    z_max := z + padding
    handler_index := i }

/-- The triple `for x / for y / for z` loop of `_prepare_indexes` for
one volume of shape `shape`: each axis runs
`range(length + padding, shape - padding + 1, length)`. -/
def subWindows (shape : Shape3) (length : Shape3) (padding : Nat) (i : Nat) :
    List SubIdx :=
  (pythonRange (length.1 + padding) (shape.1 - padding + 1) length.1).flatMap
    (fun x =>
      (pythonRange (length.2.1 + padding) (shape.2.1 - padding + 1) length.2.1).flatMap
        (fun y =>
          (pythonRange (length.2.2 + padding) (shape.2.2 - padding + 1) length.2.2).map
            (fun z => mkSub length padding i x y z)))

/-- The volume check of `_prepare_indexes`, with Python's left-to-right
short-circuit evaluation order: for each axis in turn,
`(shape[axis] - 2*padding) % length[axis] != 0 or shape[axis] % 16 != 0`,
where dividing by a zero core length is a `ZeroDivisionError` and `%`
on the possibly negative left operand is Python's Euclidean remainder
(Lean's `%` on `Int`). -/
def volumeCheckViolated (shape : Shape3) (length : Shape3) (padding : Nat) :
    Except PyError Bool :=
  if length.1 = 0 then .error .zeroDivisionError
  else if ((shape.1 : Int) - 2 * padding) % (length.1 : Int) ≠ 0 then .ok true
  else if shape.1 % 16 ≠ 0 then .ok true
  else if length.2.1 = 0 then .error .zeroDivisionError
  else if ((shape.2.1 : Int) - 2 * padding) % (length.2.1 : Int) ≠ 0 then .ok true
  else if shape.2.1 % 16 ≠ 0 then .ok true
  else if length.2.2 = 0 then .error .zeroDivisionError
  else if ((shape.2.2 : Int) - 2 * padding) % (length.2.2 : Int) ≠ 0 then .ok true
  else if shape.2.2 % 16 ≠ 0 then .ok true
  else .ok false

/-- The character sequence of the type-name pattern the center-crop
detection loop matches with `"CenterCrop3D" in str(type(transfo))`. -/
def centerCrop3DChars : List Char :=
  ['C', 'e', 'n', 't', 'e', 'r', 'C', 'r', 'o', 'p', '3', 'D']

/-- Substring test on character lists (Python's `in` on strings). -/
def charListContains (hay pat : List Char) : Bool :=
  hay.tails.any (fun t => pat.isPrefixOf t)

/-- A transform stage as seen by the 3D dataset's stringly-typed
introspection: the characters of `str(type(transfo))` and the `size`
attribute read off a matched center-crop stage. -/
structure MTTransform3 where
  typeName : List Char
  size : Shape3

/-- The detection loop of `_prepare_indexes`: the configured output size
of the first transform whose type name contains `"CenterCrop3D"`, if
any. -/
def effectiveCropSize (ts : List MTTransform3) : Option Shape3 :=
  (ts.find? (fun t => charListContains t.typeName centerCrop3DChars)).map
    (fun t => t.size)

/-- The shape the check and the window loops run against for one
volume: `shape_crop` when a center-crop stage was detected, the raw
volume shape otherwise. -/
def cropOr (crop : Option Shape3) (s : Shape3) : Shape3 :=
  match crop with
  | some sc => sc
  | none => s

/-- The per-volume loop of `_prepare_indexes` starting at handler index
`i`: for each volume take the crop size when a center-crop stage was
detected and the raw volume shape otherwise, raise `RuntimeError` when
the divisibility check is violated, and otherwise append that volume's
windows. -/
def prepareIndexesAux (length : Shape3) (padding : Nat) (crop : Option Shape3) :
    Nat → List Shape3 → Except PyError (List SubIdx)
  | _, [] => .ok []
  | i, s :: rest =>
    let shape := cropOr crop s
    match volumeCheckViolated shape length padding with
    | .error e => .error e
    | .ok true => .error .runtimeError
    | .ok false =>
      match prepareIndexesAux length padding crop (i + 1) rest with
      | .error e => .error e
      | .ok l => .ok (subWindows shape length padding i ++ l)

/-- `MRI3DSubVolumeSegmentationDataset._prepare_indexes` (run by
`__init__`): iterating `self.transform.transforms` with
`transform = None` raises `AttributeError`; otherwise the center-crop
detection runs and the volumes are processed in order.  `volShapes`
lists `get_pair_data()[0][0].shape` of each handler. -/
def prepare_indexes (transform : Option (List MTTransform3)) (length : Shape3)
    (padding : Nat) (volShapes : List Shape3) : Except PyError (List SubIdx) :=
  match transform with
  | none => .error .attributeError
  | some ts => prepareIndexesAux length padding (effectiveCropSize ts) 0 volShapes

/-- The configuration invariant of the subvolume index for one volume
shape: positive core lengths, padding fitting twice into every axis,
`(shape - 2*padding)` divisible by the core length and the shape
divisible by 16, per axis. -/
def validCfg (S : Shape3) (L : Shape3) (P : Nat) : Prop :=
  0 < L.1 ∧ 0 < L.2.1 ∧ 0 < L.2.2 ∧
  2 * P ≤ S.1 ∧ 2 * P ≤ S.2.1 ∧ 2 * P ≤ S.2.2 ∧
  (S.1 - 2 * P) % L.1 = 0 ∧ (S.2.1 - 2 * P) % L.2.1 = 0 ∧
  (S.2.2 - 2 * P) % L.2.2 = 0 ∧
  S.1 % 16 = 0 ∧ S.2.1 % 16 = 0 ∧ S.2.2 % 16 = 0

instance (S L : Shape3) (P : Nat) : Decidable (validCfg S L P) := by
  unfold validCfg; infer_instance

/-- The subvolume count `_prepare_indexes` generates for one volume:
the product over axes of `(shape - 2*padding) / length`. -/
def windowProd (S : Shape3) (L : Shape3) (P : Nat) : Nat :=
  ((S.1 - 2 * P) / L.1) * (((S.2.1 - 2 * P) / L.2.1) * ((S.2.2 - 2 * P) / L.2.2))

/-- Membership of a voxel in the core region of a window: the window
shrunk by the padding on every side. -/
def inCore (c : SubIdx) (P : Nat) (v : Nat × Nat × Nat) : Prop :=
  c.x_min + P ≤ v.1 ∧ v.1 < c.x_max - P ∧
  c.y_min + P ≤ v.2.1 ∧ v.2.1 < c.y_max - P ∧
  c.z_min + P ≤ v.2.2 ∧ v.2.2 < c.z_max - P

instance (c : SubIdx) (P : Nat) (v : Nat × Nat × Nat) : Decidable (inCore c P v) := by
  unfold inCore; infer_instance

/-- The claim's violation condition for one volume's effective shape:
some axis fails the modulus-by-length test (in Python's `%` semantics,
i.e. `Int.emod`) or the modulus-by-16 test. -/
def invariantViolated (s : Shape3) (L : Shape3) (P : Nat) : Prop :=
  ((s.1 : Int) - 2 * P) % (L.1 : Int) ≠ 0 ∨ s.1 % 16 ≠ 0 ∨
  ((s.2.1 : Int) - 2 * P) % (L.2.1 : Int) ≠ 0 ∨ s.2.1 % 16 ≠ 0 ∨
  ((s.2.2 : Int) - 2 * P) % (L.2.2 : Int) ≠ 0 ∨ s.2.2 % 16 ≠ 0

instance (s L : Shape3) (P : Nat) : Decidable (invariantViolated s L P) := by
  unfold invariantViolated; infer_instance

/-- The effective shape the divisibility check is run against: the
configured center-crop output size when a crop stage is present in the
pipeline, the raw volume shape otherwise. -/
def effShape (ts : List MTTransform3) (s : Shape3) : Shape3 :=
  cropOr (effectiveCropSize ts) s

/-! ## compute_mean_std and the DatasetManager override -/

/-- The transforms relevant to the statistics pass: the canonical
`ToTensor` conversion and any other configured transform (identified by
a tag). -/
inductive Transform2 where
  | toTensor
  | custom (n : Nat)
  deriving DecidableEq

/-- `DatasetManager.__enter__`: when the override is truthy, save the
dataset's transform in `_transform_state` and install the override.
Returns `(saved state, dataset transform after entry)`. -/
def dmEnter (override : Option Transform2) (dsTransform : Option Transform2) :
    Option Transform2 × Option Transform2 :=
  if override.isSome then (dsTransform, override) else (none, dsTransform)

/-- `DatasetManager.__exit__`: restore the saved transform only when the
saved state is truthy. -/
def dmExit (saved cur : Option Transform2) : Option Transform2 :=
  if saved.isSome then saved else cur

/-- The effect of `compute_mean_std` on the dataset's transform slot:
enter the manager with a `ToTensor` override, run the two statistics
passes (whose success or failure is `bodyRaises`; a Python `with`
statement runs `__exit__` on both exit paths and the manager re-raises),
and exit.  Returns the final transform together with whether the call
raised. -/
def computeMeanStdRun (t0 : Option Transform2) (bodyRaises : Bool) :
    Option Transform2 × Bool :=
  let st := dmEnter (some Transform2.toTensor) t0
  (dmExit st.1 st.2, bodyRaises)

/-! ## Concrete instances used by the witnesses and counterexamples -/

/-- A concrete 4 x 4 test image with distinct pixel values. -/
def c1img : PILImage :=
  { width := 4, height := 4, pix := fun x y => ((x + 2 * y : Int) : ℚ) }

/-- A concrete 64 x 64 x 20 volume. -/
def exVol : Volume3D := ⟨[64, 64, 20], fun _ _ _ => 0⟩

/-- A concrete two-channel group with one ground-truth channel and no
region-of-interest file. -/
def exGroup : FileGroup := ⟨[exVol, exVol], [some exVol], []⟩

/-- A concrete 2 x 2 plane. -/
def exPlane : Plane := ⟨(2, 2), fun _ _ => 0⟩

/-- A handle whose canonical reorientation permutes the shape. -/
def nh1 : NibHandle := ⟨[2, 3, 4], [4, 3, 2]⟩

/-- A handle already in canonical orientation. -/
def nh2 : NibHandle := ⟨[2, 3, 4], [2, 3, 4]⟩

/-- A transform stage whose type name matches the center-crop detection
and whose configured output size violates the divisibility invariant
for core length `(32, 32, 32)` and padding `16`. -/
def exCropStage : MTTransform3 := ⟨centerCrop3DChars, (80, 80, 80)⟩

/-! ## Helper lemmas -/

theorem npSet_binarize (p : Plane) (i j : Nat) :
    (npSetLow (npSetHigh p)).pix i j = if 1/2 ≤ p.pix i j then 1 else 0 := by
  by_cases h : 1/2 ≤ p.pix i j
  · simp only [npSetLow, npSetHigh, if_pos h]
    norm_num
  · have hlt : p.pix i j < 1/2 := lt_of_not_le h
    simp only [npSetLow, npSetHigh, if_neg h, if_pos hlt]

/-! ## C10: a transform pipeline is mandatory for the 3D dataset -/

/-- C10: for every filename-pairs collection (volume shape list), core
length and padding, constructing `MRI3DSubVolumeSegmentationDataset`
with the default `transform = None` raises during `_prepare_indexes`:
the center-crop detection loop unconditionally iterates
`self.transform.transforms`, which is an `AttributeError` on `None`, so
a transform pipeline is effectively mandatory. -/
theorem subvolume_dataset_requires_transform (length : Shape3) (padding : Nat)
    (volShapes : List Shape3) :
    prepare_indexes none length padding volShapes = .error .attributeError := rfl

/-! ## C5: get_pair_shapes never raises its shape errors -/

/-- C5: `get_pair_shapes` is claimed to raise a shape error whenever two
input channels or two present ground-truth channels have different
shapes, but the guard `not len(set(shapes))` is always false for the
nonempty accumulated list, so the code returns the first shapes without
raising: two input channels of shapes `(2,2,2)` and `(3,3,3)` yield
`((2,2,2), None)`, and two ground-truth channels of shapes `(4,4,4)` and
`(5,5,5)` yield `((2,2,2), (4,4,4))`, with no error in either case. -/
theorem get_pair_shapes_skips_validation :
    get_pair_shapes [[2, 2, 2], [3, 3, 3]] [] = .ok ([2, 2, 2], none) ∧
    get_pair_shapes [[2, 2, 2]] [some [4, 4, 4], some [5, 5, 5]] =
      .ok ([2, 2, 2], some [4, 4, 4]) := ⟨rfl, rfl⟩

/-! ## C8: transform restoration around compute_mean_std -/

/-- C8 counterexample: on a dataset whose transform is `None` before the
call, `compute_mean_std` leaves the temporary `ToTensor` override
installed (`__exit__` restores only a truthy saved state), so the active
transform afterwards is not the `None` it had before the call. -/
theorem compute_mean_std_override_persists_when_none :
    (computeMeanStdRun none false).1 = some Transform2.toTensor ∧
    some Transform2.toTensor ≠ (none : Option Transform2) := ⟨rfl, by decide⟩

/-- C8 (amended): whenever the dataset's transform was not `None` before
the call, `compute_mean_std` restores it on every exit path, including
when an error is raised mid-pass. -/
theorem compute_mean_std_restores_transform (t0 : Option Transform2) (raised : Bool)
    (h : t0.isSome = true) : (computeMeanStdRun t0 raised).1 = t0 := by
  cases t0 with
  | none => simp at h
  | some t => rfl

/-- Witness for the amended C8 theorem at a concrete custom transform
and a raising statistics pass. -/
theorem compute_mean_std_restores_transform_witness :
    (some (Transform2.custom 5)).isSome = true ∧
    (computeMeanStdRun (some (Transform2.custom 5)) true).1 =
      some (Transform2.custom 5) :=
  ⟨rfl, compute_mean_std_restores_transform (some (Transform2.custom 5)) true rfl⟩

/-! ## C9: the channel shift touches only the first channel -/

/-- C9 counterexample: on a sample whose input is a list of three
channels, `RandomTensorChannelShift` returns an input list with only two
entries, so the third input channel is not present in the output (the
claim says every other channel is returned unchanged and present). -/
theorem channel_shift_drops_third_channel :
    (rtcs_call 1 ⟨[exPlane, exPlane, exPlane], []⟩).map (fun s => s.input.length) =
      .ok 2 ∧ (2 : Nat) ≠ 3 := ⟨rfl, by decide⟩

/-- C9 (amended): on a sample whose input is a list of at least two
channels, `RandomTensorChannelShift` adds the sampled constant to every
pixel of the first channel, returns the second channel unchanged, keeps
exactly those two channels (any further channels are dropped), leaves
the ground truth untouched, and raises `IndexError` on lists with fewer
than two channels. -/
theorem channel_shift_first_of_two (c : ℚ) (p0 p1 : Plane) (rest : List Plane)
    (gt : List Plane) :
    rtcs_call c ⟨p0 :: p1 :: rest, gt⟩ =
      .ok ⟨[rtcs_sample_augment c p0, p1], gt⟩ ∧
    (∀ i j : Nat, (rtcs_sample_augment c p0).pix i j = p0.pix i j + c) ∧
    rtcs_call c ⟨[p0], gt⟩ = .error .indexError ∧
    rtcs_call c ⟨([] : List Plane), gt⟩ = .error .indexError :=
  ⟨rfl, fun _ _ => rfl, rfl, rfl⟩

/-! ## C7: ground-truth binarization after warps -/

/-- C7: for every ground-truth channel processed by the affine
transform, or by the elastic transform when its probability gate fires,
the result of `label_augment` maps every post-warp value at least `1/2`
to `1` and every smaller value to `0`, so the output planes contain only
the values `0` and `1`. -/
theorem gt_binarized_after_warp (warp : Plane → Plane) (s : Sample2D) (draw p : ℚ)
    (hgate : draw < p) :
    (∀ g : Plane, ∀ i j : Nat,
      (affine_label_augment warp g).pix i j =
        if 1/2 ≤ (warp g).pix i j then 1 else 0) ∧
    (∀ g : Plane, ∀ i j : Nat,
      (elastic_label_augment warp g).pix i j =
        if 1/2 ≤ (warp g).pix i j then 1 else 0) ∧
    (∀ g ∈ (affine_call warp true s).gt, ∀ i j : Nat,
      g.pix i j = 0 ∨ g.pix i j = 1) ∧
    (∀ g ∈ (elastic_call draw p warp true s).gt, ∀ i j : Nat,
      g.pix i j = 0 ∨ g.pix i j = 1) := by
  have key : ∀ g : Plane, ∀ i j : Nat,
      (npSetLow (npSetHigh (warp g))).pix i j =
        if 1/2 ≤ (warp g).pix i j then 1 else 0 :=
    fun g i j => npSet_binarize (warp g) i j
  have mem01 : ∀ g : Plane, ∀ i j : Nat,
      (npSetLow (npSetHigh (warp g))).pix i j = 0 ∨
        (npSetLow (npSetHigh (warp g))).pix i j = 1 := by
    intro g i j
    rw [key g i j]
    by_cases h : 1/2 ≤ (warp g).pix i j
    · right; rw [if_pos h]
    · left; rw [if_neg h]
  refine ⟨key, key, ?_, ?_⟩
  · intro g hg i j
    simp [affine_call] at hg
    obtain ⟨g0, -, rfl⟩ := hg
    exact mem01 g0 i j
  · intro g hg i j
    simp [elastic_call, hgate] at hg
    obtain ⟨g0, -, rfl⟩ := hg
    exact mem01 g0 i j

/-- Witness for C7: the identity warp, an empty sample, and a firing
probability gate. -/
theorem gt_binarized_after_warp_witness :
    (0 : ℚ) < 1 ∧
    ((∀ g : Plane, ∀ i j : Nat,
      (affine_label_augment id g).pix i j =
        if 1/2 ≤ (id g : Plane).pix i j then 1 else 0) ∧
    (∀ g : Plane, ∀ i j : Nat,
      (elastic_label_augment id g).pix i j =
        if 1/2 ≤ (id g : Plane).pix i j then 1 else 0) ∧
    (∀ g ∈ (affine_call id true ⟨[], [exPlane]⟩).gt, ∀ i j : Nat,
      g.pix i j = 0 ∨ g.pix i j = 1) ∧
    (∀ g ∈ (elastic_call 0 1 id true ⟨[], [exPlane]⟩).gt, ∀ i j : Nat,
      g.pix i j = 0 ∨ g.pix i j = 1)) :=
  ⟨by norm_num, gt_binarized_after_warp id ⟨[], [exPlane]⟩ 0 1 (by norm_num)⟩

/-! ## C1: CenterCrop2D followed by undo_transform -/

theorem bankerHalf_nonneg {k : Int} (hk : 0 ≤ k) : 0 ≤ bankerHalf k := by
  simp only [bankerHalf]
  split_ifs <;> omega

theorem bankerHalf_le {k : Int} (hk : 0 ≤ k) : bankerHalf k ≤ k := by
  simp only [bankerHalf]
  split_ifs <;> omega

theorem torchvisionPad_pix_in (im : PILImage) (pl pt pr pb x y : Int)
    (h1 : 0 ≤ x) (h2 : x < (im.width : Int) + pl + pr)
    (h3 : 0 ≤ y) (h4 : y < (im.height : Int) + pt + pb)
    (h5 : pl ≤ x) (h6 : x < pl + im.width)
    (h7 : pt ≤ y) (h8 : y < pt + im.height) :
    (torchvisionPad im pl pt pr pb).pix x y = im.pix (x - pl) (y - pt) := by
  simp only [torchvisionPad]
  rw [if_pos ⟨h1, h2, h3, h4, h5, h6, h7, h8⟩]

theorem torchvisionPad_pix_out (im : PILImage) (pl pt pr pb x y : Int)
    (h : ¬ (pl ≤ x ∧ x < pl + im.width ∧ pt ≤ y ∧ y < pt + im.height)) :
    (torchvisionPad im pl pt pr pb).pix x y = 0 := by
  simp only [torchvisionPad]
  rw [if_neg]
  intro hc
  exact h ⟨hc.2.2.2.2.1, hc.2.2.2.2.2.1, hc.2.2.2.2.2.2.1, hc.2.2.2.2.2.2.2⟩

/-- C1: for every image of size `W x H` and crop size `(th, tw)` with
`tw ≤ W` and `th ≤ H`, applying `CenterCrop2D` and then
`Crop2D.undo_transform` yields an image of shape exactly `W x H`; the
four paddings are computed from the recorded parameters as
`pad_left = fw`, `pad_top = fh`, `pad_right = W - fw - tw` and
`pad_bottom = H - fh - th`; the cropped content is preserved at its
recorded offset; and every canvas pixel outside that region is zero. -/
theorem centerCrop2D_undo_roundtrip (img : PILImage) (th tw : Nat)
    (htw : tw ≤ img.width) (hth : th ≤ img.height) :
    let res := centerCrop2D_call (th, tw) img
    let restored := crop2D_undo (th, tw) res.2 res.1
    restored.width = img.width ∧ restored.height = img.height ∧
    crop2D_undo_pads (th, tw) res.2 =
      (res.2.fw, res.2.fh, (img.width : Int) - res.2.fw - tw,
        (img.height : Int) - res.2.fh - th) ∧
    (∀ x y : Int, 0 ≤ x → x < tw → 0 ≤ y → y < th →
      restored.pix (res.2.fw + x) (res.2.fh + y) = res.1.pix x y) ∧
    (∀ x y : Int, 0 ≤ x → x < img.width → 0 ≤ y → y < img.height →
      (x < res.2.fw ∨ res.2.fw + tw ≤ x ∨ y < res.2.fh ∨ res.2.fh + th ≤ y) →
      restored.pix x y = 0) := by
  have hw0 : (0 : Int) ≤ (img.width : Int) - tw := by omega
  have hh0 : (0 : Int) ≤ (img.height : Int) - th := by omega
  have hfw0 : 0 ≤ bankerHalf ((img.width : Int) - tw) := bankerHalf_nonneg hw0
  have hfwle : bankerHalf ((img.width : Int) - tw) ≤ (img.width : Int) - tw :=
    bankerHalf_le hw0
  have hfh0 : 0 ≤ bankerHalf ((img.height : Int) - th) := bankerHalf_nonneg hh0
  have hfhle : bankerHalf ((img.height : Int) - th) ≤ (img.height : Int) - th :=
    bankerHalf_le hh0
  intro res restored
  have hfw : res.2.fw = bankerHalf ((img.width : Int) - tw) := rfl
  have hfh : res.2.fh = bankerHalf ((img.height : Int) - th) := rfl
  have hpw : res.2.w = img.width := rfl
  have hph : res.2.h = img.height := rfl
  have hcw : res.1.width = tw := by
    show (torchvisionCenterCrop img (th, tw)).width = tw
    simp only [torchvisionCenterCrop, pilCrop]
    omega
  have hch : res.1.height = th := by
    show (torchvisionCenterCrop img (th, tw)).height = th
    simp only [torchvisionCenterCrop, pilCrop]
    omega
  have hrest : restored = torchvisionPad res.1 res.2.fw res.2.fh
      ((res.2.w : Int) - res.2.fw - tw) ((res.2.h : Int) - res.2.fh - th) := rfl
  refine ⟨?_, ?_, rfl, ?_, ?_⟩
  · rw [hrest]
    show ((res.1.width : Int) + res.2.fw + ((res.2.w : Int) - res.2.fw - tw)).toNat
        = img.width
    rw [hcw, hfw, hpw]
    omega
  · rw [hrest]
    show ((res.1.height : Int) + res.2.fh + ((res.2.h : Int) - res.2.fh - th)).toNat
        = img.height
    rw [hch, hfh, hph]
    omega
  · intro x y hx hxtw hy hyth
    have h1 : (0 : Int) ≤ res.2.fw + x := by rw [hfw]; omega
    have h2 : res.2.fw + x <
        (res.1.width : Int) + res.2.fw + ((res.2.w : Int) - res.2.fw - tw) := by
      rw [hcw, hfw, hpw]; omega
    have h3 : (0 : Int) ≤ res.2.fh + y := by rw [hfh]; omega
    have h4 : res.2.fh + y <
        (res.1.height : Int) + res.2.fh + ((res.2.h : Int) - res.2.fh - th) := by
      rw [hch, hfh, hph]; omega
    have h5 : res.2.fw ≤ res.2.fw + x := by omega
    have h6 : res.2.fw + x < res.2.fw + res.1.width := by rw [hcw]; omega
    have h7 : res.2.fh ≤ res.2.fh + y := by omega
    have h8 : res.2.fh + y < res.2.fh + res.1.height := by rw [hch]; omega
    rw [hrest, torchvisionPad_pix_in _ _ _ _ _ _ _ h1 h2 h3 h4 h5 h6 h7 h8]
    have ha : res.2.fw + x - res.2.fw = x := by omega
    have hb : res.2.fh + y - res.2.fh = y := by omega
    rw [ha, hb]
  · intro x y hx hxw hy hyh hout
    rw [hrest, torchvisionPad_pix_out]
    rw [hcw, hch]
    rw [hfw, hfh] at hout ⊢
    intro hc
    rcases hout with h | h | h | h <;> omega

/-- Witness for C1 at a concrete 4 x 4 image and a 2 x 2 crop. -/
theorem centerCrop2D_undo_roundtrip_witness :
    2 ≤ c1img.width ∧ 2 ≤ c1img.height ∧
    (let res := centerCrop2D_call (2, 2) c1img
    let restored := crop2D_undo (2, 2) res.2 res.1
    restored.width = c1img.width ∧ restored.height = c1img.height ∧
    crop2D_undo_pads (2, 2) res.2 =
      (res.2.fw, res.2.fh, (c1img.width : Int) - res.2.fw - 2,
        (c1img.height : Int) - res.2.fh - 2) ∧
    (∀ x y : Int, 0 ≤ x → x < 2 → 0 ≤ y → y < 2 →
      restored.pix (res.2.fw + x) (res.2.fh + y) = res.1.pix x y) ∧
    (∀ x y : Int, 0 ≤ x → x < c1img.width → 0 ≤ y → y < c1img.height →
      (x < res.2.fw ∨ res.2.fw + 2 ≤ x ∨ y < res.2.fh ∨ res.2.fh + 2 ≤ y) →
      restored.pix x y = 0)) :=
  ⟨by decide, by decide, centerCrop2D_undo_roundtrip c1img 2 2 (by decide) (by decide)⟩

/-! ## C6: canonicalization versus the shape checks -/

/-- C6 counterexample: an input handle whose as-loaded shape `[2,3,4]`
agrees with the ground truth but whose canonical reorientation has shape
`[4,3,2]`.  Construction with the canonicalize flag set succeeds, so the
input / ground-truth shape-agreement check was performed on the
as-loaded shapes; had every volume been reoriented to canonical axis
order before that check (as the claim states), the shapes `[4,3,2]` and
`[2,3,4]` would have disagreed and construction would have raised. -/
theorem canonicalize_check_uses_raw_shapes :
    segPairInit [nh1] (some [some nh2]) true =
      .ok ⟨[⟨[4, 3, 2], [4, 3, 2]⟩], [some ⟨[2, 3, 4], [2, 3, 4]⟩]⟩ ∧
    (⟨[4, 3, 2], [4, 3, 2]⟩ : NibHandle).shape ≠
      (⟨[2, 3, 4], [2, 3, 4]⟩ : NibHandle).shape := ⟨rfl, by decide⟩

/-- C6 (amended): when a `SegmentationPair2D` is constructed with the
canonicalize flag set and ground truth supplied, reorientation is
applied to every input channel and every present ground-truth channel,
but only after the shape checks: the input / ground-truth
shape-agreement check is evaluated on the as-loaded
(pre-canonicalization) shapes. -/
theorem canonicalize_after_checks (inputs : List NibHandle)
    (gts : List (Option NibHandle)) (st : PairState)
    (h : segPairInit inputs (some gts) true = .ok st) :
    st.input_handle = inputs.map as_closest_canonical ∧
    st.gt_handle = gts.map (Option.map as_closest_canonical) ∧
    ∃ ish gsh, get_pair_shapes (inputs.map (fun v => v.shape))
        (gts.map (Option.map (fun v => v.shape))) = .ok (ish, some gsh) ∧
      ish = gsh := by
  unfold segPairInit at h
  by_cases h4 : inputs.any (fun v => 3 < v.shape.length)
  · rw [if_pos h4] at h
    exact Except.noConfusion h
  rw [if_neg h4] at h
  simp only [Option.getD_some, Option.isSome_some, if_true] at h
  cases hgps : get_pair_shapes (inputs.map (fun v => v.shape))
      (gts.map (Option.map (fun v => v.shape))) with
  | error e =>
    rw [hgps] at h
    exact Except.noConfusion h
  | ok pr =>
    obtain ⟨ishape, gshape⟩ := pr
    rw [hgps] at h
    cases gshape with
    | none => exact Except.noConfusion h
    | some gs =>
      by_cases hgs : ishape = gs
      · simp only [if_pos hgs] at h
        injection h with h2
        refine ⟨?_, ?_, ishape, gs, rfl, hgs⟩
        · rw [← h2]
        · rw [← h2]
      · simp only [if_neg hgs] at h
        exact Except.noConfusion h

/-- Witness for the amended C6 theorem at a concrete one-channel pair
already in canonical orientation. -/
theorem canonicalize_after_checks_witness :
    (PairState.mk [as_closest_canonical nh2] [some (as_closest_canonical nh2)]).input_handle
        = [nh2].map as_closest_canonical ∧
    (PairState.mk [as_closest_canonical nh2] [some (as_closest_canonical nh2)]).gt_handle
        = [some nh2].map (Option.map as_closest_canonical) ∧
    ∃ ish gsh, get_pair_shapes ([nh2].map (fun v => v.shape))
        ([some nh2].map (Option.map (fun v => v.shape))) = .ok (ish, some gsh) ∧
      ish = gsh :=
  canonicalize_after_checks [nh2] [some nh2]
    ⟨[as_closest_canonical nh2], [some (as_closest_canonical nh2)]⟩ rfl

/-! ## C3: length of the 2D slice index -/

theorem countP_add_countP_not {α : Type} (p : α → Bool) (l : List α) :
    l.countP p + l.countP (fun a => ! p a) = l.length := by
  induction l with
  | nil => rfl
  | cons a t ih =>
    by_cases h : p a = true <;> simp [List.countP_cons, h, ← ih] <;> omega

theorem shapesAccumLoop_ok (err : PyError) :
    ∀ (xs acc : List (List Nat)), shapesAccumLoop err acc xs = .ok (acc ++ xs) := by
  intro xs
  induction xs with
  | nil => intro acc; simp [shapesAccumLoop]
  | cons s rest ih =>
    intro acc
    have hne : (acc ++ [s]).dedup ≠ [] := by
      simp [List.dedup_eq_nil]
    have hlen : ¬ (acc ++ [s]).dedup.length = 0 := by
      simpa [List.length_eq_zero] using hne
    simp only [shapesAccumLoop, if_neg hlen]
    rw [ih (acc ++ [s])]
    simp

theorem get_pair_shapes_cons (s : List Nat) (rest : List (List Nat))
    (gts : List (Option (List Nat))) :
    get_pair_shapes (s :: rest) gts = .ok (s, (gts.filterMap id).head?) := by
  simp only [get_pair_shapes, shapesAccumLoop_ok, List.nil_append]

theorem loadSlices_ok (g : FileGroup) (axis : Nat)
    (filter : Option (SliceSample → Bool)) (hax : axis < 3) :
    ∀ idxs : List Nat, ∃ l, loadSlices g axis filter idxs = .ok l ∧
      l.length = idxs.countP
        (fun i => keepSlice filter (mkSliceSample g.inputVols g.gtVols axis i)) := by
  intro idxs
  induction idxs with
  | nil => exact ⟨[], rfl, rfl⟩
  | cons i rest ih =>
    obtain ⟨l, hl, hlen⟩ := ih
    by_cases hk : keepSlice filter (mkSliceSample g.inputVols g.gtVols axis i) = true
    · refine ⟨(mkSliceSample g.inputVols g.gtVols axis i,
        mkSliceSample g.inputVols g.roiVols axis i) :: l, ?_, ?_⟩
      · simp only [loadSlices, get_pair_slice, if_pos hax, hk, if_true, hl]
      · simp [List.countP_cons, hk, hlen]
    · have hkf : keepSlice filter (mkSliceSample g.inputVols g.gtVols axis i) = false :=
        by simpa using hk
      refine ⟨l, ?_, ?_⟩
      · simp only [loadSlices, get_pair_slice, if_pos hax, hkf, if_false,
          Bool.false_eq_true, hl]
      · simp [List.countP_cons, hkf, hlen]

theorem loadGroup_ok (g : FileGroup) (axis : Nat)
    (filter : Option (SliceSample → Bool)) (hax : axis < 3)
    (hne : g.inputVols ≠ [])
    (haxlen : axis < (firstInputShape g.inputVols).length) :
    ∃ l, loadGroup g axis filter = .ok l ∧
      l.length = groupExtent g axis - excludedCountOpt g axis filter := by
  obtain ⟨v, vs, hv⟩ := List.exists_cons_of_ne_nil hne
  have hfi : firstInputShape g.inputVols = v.shape := by rw [hv]; rfl
  have hext : groupExtent g axis = dimAt v.shape axis := by
    simp [groupExtent, hfi]
  obtain ⟨l, hl, hlen⟩ := loadSlices_ok g axis filter hax
    (List.range (dimAt v.shape axis))
  refine ⟨l, ?_, ?_⟩
  · unfold loadGroup
    rw [hv, List.map_cons, get_pair_shapes_cons]
    have hax2 : axis < v.shape.length := by rwa [hfi] at haxlen
    simp only [if_pos hax2]
    exact hl
  · rw [hlen, hext]
    cases filter with
    | none =>
      simp [keepSlice, excludedCountOpt, List.countP_true]
    | some f =>
      have hadd := countP_add_countP_not
        (fun i => keepSlice (some f) (mkSliceSample g.inputVols g.gtVols axis i))
        (List.range (dimAt v.shape axis))
      have hle := List.countP_le_length
        (p := fun i => ! keepSlice (some f) (mkSliceSample g.inputVols g.gtVols axis i))
        (l := List.range (dimAt v.shape axis))
      have hexc : excludedCountOpt g axis (some f) =
          (List.range (dimAt v.shape axis)).countP
            (fun i => ! keepSlice (some f) (mkSliceSample g.inputVols g.gtVols axis i)) := by
        simp [excludedCountOpt, excludedCount, keepSlice, hext]
      rw [hexc]
      simp only [List.length_range] at hadd
      omega

theorem load_filenames_ok (axis : Nat) (filter : Option (SliceSample → Bool))
    (hax : axis < 3) :
    ∀ groups : List FileGroup, (∀ g ∈ groups, g.inputVols ≠ []) →
    (∀ g ∈ groups, axis < (firstInputShape g.inputVols).length) →
    ∃ l, load_filenames groups axis filter = .ok l ∧
      l.length = (groups.map
        (fun g => groupExtent g axis - excludedCountOpt g axis filter)).sum := by
  intro groups
  induction groups with
  | nil => intro _ _; exact ⟨[], rfl, rfl⟩
  | cons g rest ih =>
    intro h1 h2
    obtain ⟨l1, hl1, hlen1⟩ := loadGroup_ok g axis filter hax
      (h1 g (by simp)) (h2 g (by simp))
    obtain ⟨l2, hl2, hlen2⟩ := ih
      (fun g2 hg => h1 g2 (by simp [hg])) (fun g2 hg => h2 g2 (by simp [hg]))
    refine ⟨l1 ++ l2, ?_, ?_⟩
    · simp only [load_filenames, hl1, hl2]
    · simp [hlen1, hlen2]

/-- C3: for every nonempty list of valid volume-pair groups (each with
at least one input channel and a shape long enough for the slicing
axis), `_load_filenames` succeeds and the resulting dataset length
equals the sum over groups of the extent along the slicing axis minus
the slices excluded by the inclusion predicate; with no predicate it is
the raw sum of extents.  In particular the concrete 2-channel group of
ground-truth shape `(64, 64, 20)` with slicing axis 2 and no predicate
yields length 20, and `__getitem__` at index 10 returns `input` as a
list of two planes of shape `(64, 64)` each. -/
theorem sliceIndex_length (groups : List FileGroup) (axis : Nat)
    (filter : Option (SliceSample → Bool))
    (hax : axis < 3) (hne : groups ≠ [])
    (hch : ∀ g ∈ groups, g.inputVols ≠ [])
    (haxlen : ∀ g ∈ groups, axis < (firstInputShape g.inputVols).length) :
    (∃ l, load_filenames groups axis filter = .ok l ∧
      l.length = (groups.map
        (fun g => groupExtent g axis - excludedCountOpt g axis filter)).sum ∧
      (filter = none →
        l.length = (groups.map (fun g => groupExtent g axis)).sum)) ∧
    ((load_filenames [exGroup] 2 none).map
        (fun l => (l.length, (getItem2D l none 10).map
          (fun d => d.input.map (fun p => p.shape)))) =
      .ok (20, some [(64, 64), (64, 64)])) := by
  refine ⟨?_, by rfl⟩
  obtain ⟨l, hl, hlen⟩ := load_filenames_ok axis filter hax groups hch haxlen
  refine ⟨l, hl, hlen, ?_⟩
  intro hf
  subst hf
  simpa [excludedCountOpt] using hlen

/-- Witness for C3 at the concrete two-channel group, axis 2 and no
predicate. -/
theorem sliceIndex_length_witness :
    (∃ l, load_filenames [exGroup] 2 none = .ok l ∧
      l.length = ([exGroup].map
        (fun g => groupExtent g 2 - excludedCountOpt g 2 none)).sum ∧
      ((none : Option (SliceSample → Bool)) = none →
        l.length = ([exGroup].map (fun g => groupExtent g 2)).sum)) ∧
    ((load_filenames [exGroup] 2 none).map
        (fun l => (l.length, (getItem2D l none 10).map
          (fun d => d.input.map (fun p => p.shape)))) =
      .ok (20, some [(64, 64), (64, 64)])) :=
  sliceIndex_length [exGroup] 2 none (by decide)
    (by exact List.cons_ne_nil _ _)
    (by
      intro g hg
      rw [List.mem_singleton] at hg
      subst hg
      exact List.cons_ne_nil _ _)
    (by
      intro g hg
      rw [List.mem_singleton] at hg
      subst hg
      decide)

/-! ## C2 and C4: the 3D subvolume index -/

theorem intmod_sub_eq_zero_iff {a b c : Nat} (h : 2 * c ≤ a) :
    ((a : Int) - 2 * c) % (b : Int) = 0 ↔ (a - 2 * c) % b = 0 := by
  have hcast : ((a : Int) - 2 * c) = ((a - 2 * c : Nat) : Int) := by omega
  rw [hcast, ← Int.natCast_mod]
  omega

theorem pythonRange_length (start stop step : Nat) :
    (pythonRange start stop step).length = (stop - start + step - 1) / step := by
  simp [pythonRange]

theorem mem_pythonRange {a : Nat} {start stop step : Nat} :
    a ∈ pythonRange start stop step ↔
      ∃ k, k < (stop - start + step - 1) / step ∧ a = start + k * step := by
  constructor
  · intro h
    simp only [pythonRange, List.mem_map, List.mem_range] at h
    obtain ⟨k, hk, he⟩ := h
    exact ⟨k, hk, he.symm⟩
  · rintro ⟨k, hk, rfl⟩
    simp only [pythonRange, List.mem_map, List.mem_range]
    exact ⟨k, hk, rfl⟩

theorem axisCount (s L p : Nat) (hL : 0 < L) (hp : 2 * p ≤ s)
    (hd : (s - 2 * p) % L = 0) :
    ((s - p + 1) - (L + p) + L - 1) / L = (s - 2 * p) / L := by
  obtain ⟨n, hn⟩ := Nat.dvd_of_mod_eq_zero hd
  cases n with
  | zero =>
    have h0 : s - 2 * p = 0 := by simpa using hn
    have h1 : (s - p + 1) - (L + p) + L - 1 = L - 1 := by omega
    rw [h1, h0, Nat.zero_div]
    exact Nat.div_eq_of_lt (by omega)
  | succ m =>
    have hm : L * 1 ≤ L * (m + 1) := Nat.mul_le_mul_left L (by omega)
    have hge : L ≤ s - 2 * p := by omega
    have heq : (s - p + 1) - (L + p) + L - 1 = s - 2 * p := by omega
    rw [heq]

theorem length_flatMap_const {α β : Type} (l : List α) (f : α → List β) (c : Nat)
    (h : ∀ a ∈ l, (f a).length = c) : (l.flatMap f).length = l.length * c := by
  induction l with
  | nil => simp
  | cons a t ih =>
    simp only [List.flatMap_cons, List.length_append, List.length_cons]
    rw [h a (by simp), ih (fun b hb => h b (by simp [hb]))]
    ring

theorem subWindows_length (S L : Shape3) (P : Nat) (i : Nat) (h : validCfg S L P) :
    (subWindows S L P i).length = windowProd S L P := by
  obtain ⟨hL1, hL2, hL3, hP1, hP2, hP3, hd1, hd2, hd3, -, -, -⟩ := h
  have c1 := axisCount S.1 L.1 P hL1 hP1 hd1
  have c2 := axisCount S.2.1 L.2.1 P hL2 hP2 hd2
  have c3 := axisCount S.2.2 L.2.2 P hL3 hP3 hd3
  unfold subWindows
  rw [length_flatMap_const _ _ (((S.2.1 - 2 * P) / L.2.1) * ((S.2.2 - 2 * P) / L.2.2))]
  · rw [pythonRange_length, c1]
    rfl
  · intro x hx
    rw [length_flatMap_const _ _ ((S.2.2 - 2 * P) / L.2.2)]
    · rw [pythonRange_length, c2]
    · intro y hy
      rw [List.length_map, pythonRange_length, c3]

theorem mem_subWindows {c : SubIdx} {S L : Shape3} {P i : Nat} :
    c ∈ subWindows S L P i ↔
      ∃ x ∈ pythonRange (L.1 + P) (S.1 - P + 1) L.1,
      ∃ y ∈ pythonRange (L.2.1 + P) (S.2.1 - P + 1) L.2.1,
      ∃ z ∈ pythonRange (L.2.2 + P) (S.2.2 - P + 1) L.2.2,
        mkSub L P i x y z = c := by
  simp [subWindows]

theorem subWindows_span (S L : Shape3) (P : Nat) (i : Nat) :
    ∀ c ∈ subWindows S L P i,
      c.x_max - c.x_min = L.1 + 2 * P ∧ c.y_max - c.y_min = L.2.1 + 2 * P ∧
      c.z_max - c.z_min = L.2.2 + 2 * P := by
  intro c hc
  rw [mem_subWindows] at hc
  obtain ⟨x, hx, y, hy, z, hz, rfl⟩ := hc
  rw [mem_pythonRange] at hx hy hz
  obtain ⟨kx, hkx, rfl⟩ := hx
  obtain ⟨ky, hky, rfl⟩ := hy
  obtain ⟨kz, hkz, rfl⟩ := hz
  simp only [mkSub]
  refine ⟨by omega, by omega, by omega⟩

theorem axis_core_unique (s L p v : Nat) (hL : 0 < L) (hp : 2 * p ≤ s)
    (hd : (s - 2 * p) % L = 0) (hv1 : p ≤ v) (hv2 : v + p < s) :
    ∃ x ∈ pythonRange (L + p) (s - p + 1) L,
      ((x - L - p) + p ≤ v ∧ v < (x + p) - p) ∧
      ∀ x2 ∈ pythonRange (L + p) (s - p + 1) L,
        ((x2 - L - p) + p ≤ v ∧ v < (x2 + p) - p) → x2 = x := by
  have hdvd := Nat.dvd_of_mod_eq_zero hd
  have hqr : L * ((v - p) / L) + (v - p) % L = v - p := Nat.div_add_mod (v - p) L
  have hrL : (v - p) % L < L := Nat.mod_lt _ hL
  have hcomm : L * ((v - p) / L) = ((v - p) / L) * L := Nat.mul_comm _ _
  have hvD : v - p < s - 2 * p := by omega
  have hqn : (v - p) / L < (s - 2 * p) / L := Nat.div_lt_div_of_lt_of_dvd hdvd hvD
  have hcount := axisCount s L p hL hp hd
  refine ⟨L + p + ((v - p) / L) * L, ?_, ⟨?_, ?_⟩, ?_⟩
  · rw [mem_pythonRange]
    exact ⟨(v - p) / L, by rw [hcount]; exact hqn, rfl⟩
  · omega
  · omega
  · intro x2 hx2 hc
    obtain ⟨hc1, hc2⟩ := hc
    rw [mem_pythonRange, hcount] at hx2
    obtain ⟨k, hk, rfl⟩ := hx2
    have h1 : k * L ≤ v - p := by omega
    have hexp : (k + 1) * L = k * L + L := by ring
    have h2 : v - p < (k + 1) * L := by omega
    have hk1 : k ≤ (v - p) / L := by
      have := (Nat.le_div_iff_mul_le hL).mpr h1
      omega
    have hk2 : (v - p) / L ≤ k := by
      have h3 : (v - p) / L < k + 1 := (Nat.div_lt_iff_lt_mul hL).mpr h2
      omega
    have hkq : k = (v - p) / L := by omega
    rw [hkq]

theorem subWindows_tiling (S L : Shape3) (P : Nat) (i : Nat) (h : validCfg S L P)
    (v : Nat × Nat × Nat)
    (h1 : P ≤ v.1) (h2 : v.1 + P < S.1) (h3 : P ≤ v.2.1) (h4 : v.2.1 + P < S.2.1)
    (h5 : P ≤ v.2.2) (h6 : v.2.2 + P < S.2.2) :
    ∃! c, c ∈ subWindows S L P i ∧ inCore c P v := by
  obtain ⟨hL1, hL2, hL3, hP1, hP2, hP3, hd1, hd2, hd3, -, -, -⟩ := h
  obtain ⟨x, hxmem, ⟨hx1, hx2⟩, hxu⟩ :=
    axis_core_unique S.1 L.1 P v.1 hL1 hP1 hd1 h1 h2
  obtain ⟨y, hymem, ⟨hy1, hy2⟩, hyu⟩ :=
    axis_core_unique S.2.1 L.2.1 P v.2.1 hL2 hP2 hd2 h3 h4
  obtain ⟨z, hzmem, ⟨hz1, hz2⟩, hzu⟩ :=
    axis_core_unique S.2.2 L.2.2 P v.2.2 hL3 hP3 hd3 h5 h6
  refine ⟨mkSub L P i x y z, ⟨?_, ?_⟩, ?_⟩
  · rw [mem_subWindows]
    exact ⟨x, hxmem, y, hymem, z, hzmem, rfl⟩
  · exact ⟨hx1, hx2, hy1, hy2, hz1, hz2⟩
  · rintro c2 ⟨hc2mem, hc2core⟩
    rw [mem_subWindows] at hc2mem
    obtain ⟨x2, hx2mem, y2, hy2mem, z2, hz2mem, rfl⟩ := hc2mem
    obtain ⟨g1, g2, g3, g4, g5, g6⟩ := hc2core
    have ex := hxu x2 hx2mem ⟨g1, g2⟩
    have ey := hyu y2 hy2mem ⟨g3, g4⟩
    have ez := hzu z2 hz2mem ⟨g5, g6⟩
    rw [ex, ey, ez]

theorem subWindows_core_in_box (S L : Shape3) (P : Nat) (i : Nat)
    (h : validCfg S L P) :
    ∀ c ∈ subWindows S L P i, ∀ v : Nat × Nat × Nat, inCore c P v →
      P ≤ v.1 ∧ v.1 + P < S.1 ∧ P ≤ v.2.1 ∧ v.2.1 + P < S.2.1 ∧
      P ≤ v.2.2 ∧ v.2.2 + P < S.2.2 := by
  intro c hc v hv
  obtain ⟨hL1, hL2, hL3, hP1, hP2, hP3, hd1, hd2, hd3, -, -, -⟩ := h
  rw [mem_subWindows] at hc
  obtain ⟨x, hx, y, hy, z, hz, rfl⟩ := hc
  rw [mem_pythonRange, axisCount S.1 L.1 P hL1 hP1 hd1] at hx
  rw [mem_pythonRange, axisCount S.2.1 L.2.1 P hL2 hP2 hd2] at hy
  rw [mem_pythonRange, axisCount S.2.2 L.2.2 P hL3 hP3 hd3] at hz
  obtain ⟨kx, hkx, rfl⟩ := hx
  obtain ⟨ky, hky, rfl⟩ := hy
  obtain ⟨kz, hkz, rfl⟩ := hz
  obtain ⟨g1, g2, g3, g4, g5, g6⟩ := hv
  simp only [mkSub] at g1 g2 g3 g4 g5 g6
  have e1 : (S.1 - 2 * P) / L.1 * L.1 = S.1 - 2 * P :=
    Nat.div_mul_cancel (Nat.dvd_of_mod_eq_zero hd1)
  have e2 : (S.2.1 - 2 * P) / L.2.1 * L.2.1 = S.2.1 - 2 * P :=
    Nat.div_mul_cancel (Nat.dvd_of_mod_eq_zero hd2)
  have e3 : (S.2.2 - 2 * P) / L.2.2 * L.2.2 = S.2.2 - 2 * P :=
    Nat.div_mul_cancel (Nat.dvd_of_mod_eq_zero hd3)
  have m1 : (kx + 1) * L.1 ≤ (S.1 - 2 * P) / L.1 * L.1 :=
    Nat.mul_le_mul_right _ (by omega)
  have m2 : (ky + 1) * L.2.1 ≤ (S.2.1 - 2 * P) / L.2.1 * L.2.1 :=
    Nat.mul_le_mul_right _ (by omega)
  have m3 : (kz + 1) * L.2.2 ≤ (S.2.2 - 2 * P) / L.2.2 * L.2.2 :=
    Nat.mul_le_mul_right _ (by omega)
  have x1 : (kx + 1) * L.1 = kx * L.1 + L.1 := by ring
  have x2 : (ky + 1) * L.2.1 = ky * L.2.1 + L.2.1 := by ring
  have x3 : (kz + 1) * L.2.2 = kz * L.2.2 + L.2.2 := by ring
  refine ⟨by omega, by omega, by omega, by omega, by omega, by omega⟩

theorem volumeCheck_ok_of_valid (s L : Shape3) (P : Nat) (h : validCfg s L P) :
    volumeCheckViolated s L P = .ok false := by
  obtain ⟨hL1, hL2, hL3, hP1, hP2, hP3, hd1, hd2, hd3, h16a, h16b, h16c⟩ := h
  have e1 : ((s.1 : Int) - 2 * P) % (L.1 : Int) = 0 :=
    (intmod_sub_eq_zero_iff hP1).mpr hd1
  have e2 : ((s.2.1 : Int) - 2 * P) % (L.2.1 : Int) = 0 :=
    (intmod_sub_eq_zero_iff hP2).mpr hd2
  have e3 : ((s.2.2 : Int) - 2 * P) % (L.2.2 : Int) = 0 :=
    (intmod_sub_eq_zero_iff hP3).mpr hd3
  simp [volumeCheckViolated, hL1.ne', hL2.ne', hL3.ne', e1, e2, e3, h16a, h16b, h16c]

theorem volumeCheck_false_not_violated (s L : Shape3) (P : Nat)
    (hok : volumeCheckViolated s L P = .ok false) : ¬ invariantViolated s L P := by
  intro hviol
  unfold volumeCheckViolated at hok
  unfold invariantViolated at hviol
  split_ifs at hok <;> simp_all

theorem prepareIndexesAux_error (L : Shape3) (P : Nat) (crop : Option Shape3) :
    ∀ (shapes : List Shape3) (i : Nat),
      (∃ s ∈ shapes, invariantViolated (cropOr crop s) L P) →
      ∃ e, prepareIndexesAux L P crop i shapes = .error e := by
  intro shapes
  induction shapes with
  | nil => intro i h; simp at h
  | cons s rest ih =>
    intro i h
    cases hchk : volumeCheckViolated (cropOr crop s) L P with
    | error e => exact ⟨e, by simp [prepareIndexesAux, hchk]⟩
    | ok b =>
      cases b with
      | true => exact ⟨.runtimeError, by simp [prepareIndexesAux, hchk]⟩
      | false =>
        have hnv := volumeCheck_false_not_violated _ _ _ hchk
        have hrest : ∃ s2 ∈ rest, invariantViolated (cropOr crop s2) L P := by
          rcases h with ⟨s2, hs2, hv⟩
          rcases List.mem_cons.mp hs2 with rfl | hmem
          · exact absurd hv hnv
          · exact ⟨s2, hmem, hv⟩
        obtain ⟨e, he⟩ := ih (i + 1) hrest
        exact ⟨e, by simp [prepareIndexesAux, hchk, he]⟩

theorem prepareIndexesAux_ok_of_valid (L : Shape3) (P : Nat) :
    ∀ (shapes : List Shape3) (i : Nat), (∀ s ∈ shapes, validCfg s L P) →
      ∃ l, prepareIndexesAux L P none i shapes = .ok l ∧
        l.length = (shapes.map (fun s => windowProd s L P)).sum := by
  intro shapes
  induction shapes with
  | nil => intro i _; exact ⟨[], rfl, rfl⟩
  | cons s rest ih =>
    intro i hall
    have hchk := volumeCheck_ok_of_valid s L P (hall s (by simp))
    obtain ⟨l, hl, hlen⟩ := ih (i + 1) (fun s2 hs2 => hall s2 (by simp [hs2]))
    refine ⟨subWindows s L P i ++ l, ?_, ?_⟩
    · simp [prepareIndexesAux, cropOr, hchk, hl]
    · simp [subWindows_length s L P i (hall s (by simp)), hlen]

/-- C4: for every transform pipeline, core length, padding and volume
collection, if the divisibility invariant
`(shape - 2*padding) % length == 0 and shape % 16 == 0` fails on some
axis for some volume's effective shape (the configured center-crop
output size when a `CenterCrop3D`-named stage is present in the
pipeline, the raw volume shape otherwise), then
`MRI3DSubVolumeSegmentationDataset` construction raises an error during
`_prepare_indexes` and never returns a window list with partial tiles. -/
theorem subvolume_invariant_fatal (ts : List MTTransform3) (L : Shape3) (P : Nat)
    (shapes : List Shape3)
    (hviol : ∃ s ∈ shapes, invariantViolated (effShape ts s) L P) :
    ∃ e, prepare_indexes (some ts) L P shapes = .error e := by
  obtain ⟨e, he⟩ := prepareIndexesAux_error L P (effectiveCropSize ts) shapes 0
    (by simpa [effShape] using hviol)
  exact ⟨e, by simp [prepare_indexes, he]⟩

/-- Witness for C4: a pipeline containing a `CenterCrop3D`-named stage
whose configured `(80, 80, 80)` output size violates the invariant for
core length `(32, 32, 32)` and padding `16`, over one raw `96^3`
volume. -/
theorem subvolume_invariant_fatal_witness :
    ∃ e, prepare_indexes (some [exCropStage]) (32, 32, 32) 16 [(96, 96, 96)] =
      .error e :=
  subvolume_invariant_fatal [exCropStage] (32, 32, 32) 16 [(96, 96, 96)] (by decide)

/-- C2 counterexample: with volume shape `(96, 96, 96)`, core length
`(32, 32, 32)` and padding `16` (the claim's own example), the voxel
`(0, 0, 0)` lies inside the volume but inside no window's core region,
so the core regions do not tile the volume: they only tile the inner
region at distance `padding` from the boundary. -/
theorem subvolume_cores_gap_at_origin :
    (0 : Nat) < 96 ∧
    ∀ c ∈ subWindows (96, 96, 96) (32, 32, 32) 16 0, ¬ inCore c 16 (0, 0, 0) := by
  decide

/-- C2 (amended): for every volume shape `S`, core length `L` and
padding `P` satisfying the divisibility invariant,
`MRI3DSubVolumeSegmentationDataset` generates exactly
`prod axis (S[axis] - 2P) / L[axis]` subvolume windows per volume (and
`len()` is that product summed over the volumes), each window has bound
span `L[axis] + 2P` along every axis, and the core regions (the windows
shrunk by `P` on every side) tile the inner region `[P, S[axis] - P)`
of the volume — the whole volume when `P = 0` — exactly, with no gaps
or overlaps; in particular shape `(96, 96, 96)` with length
`(32, 32, 32)` and padding `16` gives 8 subvolumes of span 64 per
axis. -/
theorem subvolume_tiling_count (S L : Shape3) (P : Nat) (i : Nat)
    (shapes : List Shape3) (hS : validCfg S L P)
    (hall : ∀ s ∈ shapes, validCfg s L P) :
    (subWindows S L P i).length = windowProd S L P ∧
    (∀ c ∈ subWindows S L P i,
      c.x_max - c.x_min = L.1 + 2 * P ∧ c.y_max - c.y_min = L.2.1 + 2 * P ∧
      c.z_max - c.z_min = L.2.2 + 2 * P) ∧
    (∀ v : Nat × Nat × Nat,
      P ≤ v.1 → v.1 + P < S.1 → P ≤ v.2.1 → v.2.1 + P < S.2.1 →
      P ≤ v.2.2 → v.2.2 + P < S.2.2 →
      ∃! c, c ∈ subWindows S L P i ∧ inCore c P v) ∧
    (∀ c ∈ subWindows S L P i, ∀ v : Nat × Nat × Nat, inCore c P v →
      P ≤ v.1 ∧ v.1 + P < S.1 ∧ P ≤ v.2.1 ∧ v.2.1 + P < S.2.1 ∧
      P ≤ v.2.2 ∧ v.2.2 + P < S.2.2) ∧
    (∃ l, prepare_indexes (some []) L P shapes = .ok l ∧
      l.length = (shapes.map (fun s => windowProd s L P)).sum) ∧
    ((subWindows (96, 96, 96) (32, 32, 32) 16 0).length = 8 ∧
      ∀ c ∈ subWindows (96, 96, 96) (32, 32, 32) 16 0,
        c.x_max - c.x_min = 64 ∧ c.y_max - c.y_min = 64 ∧
        c.z_max - c.z_min = 64) := by
  refine ⟨subWindows_length S L P i hS, subWindows_span S L P i, ?_, ?_, ?_, ?_⟩
  · intro v h1 h2 h3 h4 h5 h6
    exact subWindows_tiling S L P i hS v h1 h2 h3 h4 h5 h6
  · exact subWindows_core_in_box S L P i hS
  · obtain ⟨l, hl, hlen⟩ := prepareIndexesAux_ok_of_valid L P shapes 0 hall
    exact ⟨l, by simpa [prepare_indexes, effectiveCropSize] using hl, hlen⟩
  · exact ⟨by decide, by decide⟩

/-- Witness for the amended C2 theorem at the claim's own example:
shape `(96, 96, 96)`, core length `(32, 32, 32)`, padding `16`, one
volume. -/
theorem subvolume_tiling_count_witness :
    (subWindows (96, 96, 96) (32, 32, 32) 16 0).length =
      windowProd (96, 96, 96) (32, 32, 32) 16 ∧
    (∀ c ∈ subWindows (96, 96, 96) (32, 32, 32) 16 0,
      c.x_max - c.x_min = 32 + 2 * 16 ∧ c.y_max - c.y_min = 32 + 2 * 16 ∧
      c.z_max - c.z_min = 32 + 2 * 16) ∧
    (∀ v : Nat × Nat × Nat,
      16 ≤ v.1 → v.1 + 16 < 96 → 16 ≤ v.2.1 → v.2.1 + 16 < 96 →
      16 ≤ v.2.2 → v.2.2 + 16 < 96 →
      ∃! c, c ∈ subWindows (96, 96, 96) (32, 32, 32) 16 0 ∧ inCore c 16 v) ∧
    (∀ c ∈ subWindows (96, 96, 96) (32, 32, 32) 16 0,
      ∀ v : Nat × Nat × Nat, inCore c 16 v →
      16 ≤ v.1 ∧ v.1 + 16 < 96 ∧ 16 ≤ v.2.1 ∧ v.2.1 + 16 < 96 ∧
      16 ≤ v.2.2 ∧ v.2.2 + 16 < 96) ∧
    (∃ l, prepare_indexes (some []) (32, 32, 32) 16 [(96, 96, 96)] = .ok l ∧
      l.length = ([(96, 96, 96)].map
        (fun s => windowProd s (32, 32, 32) 16)).sum) ∧
    ((subWindows (96, 96, 96) (32, 32, 32) 16 0).length = 8 ∧
      ∀ c ∈ subWindows (96, 96, 96) (32, 32, 32) 16 0,
        c.x_max - c.x_min = 64 ∧ c.y_max - c.y_min = 64 ∧
        c.z_max - c.z_min = 64) :=
  subvolume_tiling_count (96, 96, 96) (32, 32, 32) 16 0 [(96, 96, 96)]
    (by decide) (by decide)
